import Mathlib

attribute [local semireducible] Rat.add Rat.sub Rat.mul Rat.ofScientific Rat.inv

/-!
Verification of the PDF text-extraction pipeline of `src/pdf-parser.js`.

The JavaScript source is shallowly embedded: every function below mirrors one
source function (same name where Lean allows it).  Conventions of the
embedding, used consistently:

* JS numbers are modelled as exact rationals (`Rat`).  The claims settled here
  depend only on comparisons and small-integer arithmetic where doubles are
  exact or where the exact value is irrelevant, so no floating-point rounding
  is modelled.  The one transcendental (`Math.pow(x, 0.85)` in the gamma pass)
  is taken as an uninterpreted parameter of the image preprocessor.
* A `pdfjs` text item `{str, width, height, transform}` is modelled by its
  used fields: `transform[3]` (font scale), `transform[4]` (x), `transform[5]`
  (y).  A loaded document is the list of its pages; the loader's reported page
  count (`pdf.numPages`) is the length of that list.
* JS truthiness tests on strings (`item.str && item.str.trim()`) become
  inequality with the empty string.
* `Array.prototype.sort(cmp)` (stable since ES2019) is modelled by a stable
  insertion sort `sortOrd le` with `le a b ↔ cmp a b ≤ 0`.
* Asynchrony is dropped: `await` of a collaborator becomes a call into an
  explicit behaviour record, and a collaborator step that can reject returns
  `Except`.  The Tesseract collaborator is an `OCRWorld`: whether
  `worker.setParameters` succeeds, and what each `worker.recognize` returns.
  `createWorker` itself (the acquisition) is assumed to succeed, as the claims
  under study quantify over what happens *after* acquisition.
-/

/-- JS `\s` on the characters relevant here (space, tab, newline, carriage
return, vertical tab, form feed, no-break space). -/
def isSpaceJS (c : Char) : Bool :=
  c = ' ' || c = '\t' || c = '\n' || c = '\r' || c = Char.ofNat 11 ||
  c = Char.ofNat 12 || c = Char.ofNat 160

/-- Strip leading and trailing JS whitespace from a character list. -/
def trimChars (l : List Char) : List Char :=
  ((l.dropWhile isSpaceJS).reverse.dropWhile isSpaceJS).reverse

/-- JS `String.prototype.trim()`. -/
def jsTrim (s : String) : String := String.mk (trimChars s.toList)

/-- JS `split('\n')` on a character list. -/
def splitNl : List Char → List (List Char)
  | [] => [[]]
  | '\n' :: rest => [] :: splitNl rest
  | c :: rest =>
      match splitNl rest with
      | [] => [[c]]
      | g :: gs => (c :: g) :: gs

/-- JS `join('\n')` on character-list lines. -/
def joinNl : List (List Char) → List Char
  | [] => []
  | [g] => g
  | g :: gs => g ++ '\n' :: joinNl gs

/-- One entry of `textContent.items` (a pdfjs text item), restricted to the
fields `extractWithStandardMethod` reads: `str`, `width`, `height`,
`transform[3]`, `transform[4]`, `transform[5]`. -/
structure TextItem where
  str : String
  width : Rat
  height : Rat
  t3 : Rat
  t4 : Rat
  t5 : Rat
deriving DecidableEq, Repr

/-- The per-run record `{x, text, width, fontSize}` pushed into
`currentLine.items` at lines 129–134 of the source. -/
structure RunItem where
  x : Rat
  text : String
  width : Rat
  fontSize : Rat
deriving DecidableEq, Repr

/-- A grouped line `{y, items, fontSize}` (source lines 115–143). -/
structure Line where
  y : Rat
  items : List RunItem
  fontSize : Rat
deriving DecidableEq, Repr

/-- One page as the standard path sees it: the viewport width at scale 1.0 and
the page's text items. -/
structure Page where
  width : Rat
  items : List TextItem
deriving DecidableEq, Repr

/-- A loaded PDF document: its pages.  `pdf.numPages` is `pages.length`. -/
structure PDFDoc where
  pages : List Page
deriving DecidableEq, Repr

/-- `Math.abs(item.transform[3] || item.height || 10)` (source line 100/120):
the JS `||` chain takes the first non-zero value, then `Math.abs`. -/
def itemFontSize (it : TextItem) : Rat :=
  |if it.t3 ≠ 0 then it.t3 else if it.height ≠ 0 then it.height else 10|

/-- `items.filter((item) => item.str && item.str.trim())` (source lines 90–92). -/
def pageFiltered (page : Page) : List TextItem :=
  page.items.filter (fun it => it.str ≠ "" ∧ jsTrim it.str ≠ "")

/-- Mean of the runs' font sizes (source lines 100–101). -/
def pageAvgFontSize (items : List TextItem) : Rat :=
  ((items.map itemFontSize).sum) / ((items.length : Nat) : Rat)

/-- Stable insertion of `x` into `l`, keeping `x` before later elements it
ties with: models one step of a stable sort. -/
def insOrd {α : Type} (le : α → α → Bool) (x : α) : List α → List α
  | [] => [x]
  | y :: ys => if le x y then x :: y :: ys else y :: insOrd le x ys

/-- Stable insertion sort: the embedding of `Array.prototype.sort(cmp)` with
`le a b ↔ cmp a b ≤ 0`. -/
def sortOrd {α : Type} (le : α → α → Bool) : List α → List α
  | [] => []
  | x :: xs => insOrd le x (sortOrd le xs)

/-- The comparator of source lines 106–112: descending y when the vertical
distance exceeds `lineThreshold`, otherwise ascending x.  `itemLe thr a b`
says the comparator value `cmp(a,b)` is `≤ 0`. -/
def itemLe (thr : Rat) (a b : TextItem) : Bool :=
  if |b.t5 - a.t5| > thr then b.t5 - a.t5 ≤ 0 else a.t4 - b.t4 ≤ 0

/-- The line-grouping fold of source lines 115–143.  The optional accumulator
is `currentLine` (`none` models `y === null`); a new line starts when the
vertical gap from the current line's `y` exceeds the threshold; a line's
`fontSize` is bumped to the max of its members. -/
def groupLoop (thr : Rat) : List TextItem → Option Line → List Line
  | [], none => []
  | [], some cl => [cl]
  | it :: rest, none =>
      groupLoop thr rest
        (some ⟨it.t5, [⟨it.t4, it.str, it.width, itemFontSize it⟩], itemFontSize it⟩)
  | it :: rest, some cl =>
      if |cl.y - it.t5| > thr then
        cl :: groupLoop thr rest
          (some ⟨it.t5, [⟨it.t4, it.str, it.width, itemFontSize it⟩], itemFontSize it⟩)
      else
        groupLoop thr rest
          (some ⟨cl.y, cl.items ++ [⟨it.t4, it.str, it.width, itemFontSize it⟩],
                 max cl.fontSize (itemFontSize it)⟩)

/-- Average x of a line's items (source line 153 / 172). -/
def lineAvgX (items : List RunItem) : Rat :=
  ((items.map (fun it => it.x)).sum) / ((items.length : Nat) : Rat)

/-- The column-count loop of source lines 150–156: `leftCount` when
`avgX < midPage * 0.6`, else `rightCount` when `avgX > midPage * 0.8`. -/
def countLR (midPage : Rat) : List Line → Nat × Nat
  | [] => (0, 0)
  | l :: ls =>
      let p := countLR midPage ls
      if lineAvgX l.items < midPage * 0.6 then (p.1 + 1, p.2)
      else if lineAvgX l.items > midPage * 0.8 then (p.1, p.2 + 1)
      else p

/-- `buildLineText` (source lines 236–257): first item's text, then for each
later item a separator chosen from the gap to the previous item. -/
def buildRest (avgFontSize : Rat) (prev : RunItem) : List RunItem → String
  | [] => ""
  | it :: rest =>
      (if it.x - (prev.x + prev.width) > (avgFontSize * 0.3) * 6 then "    "
       else if it.x - (prev.x + prev.width) > (avgFontSize * 0.3) * 0.5 then " "
       else "")
      ++ it.text ++ buildRest avgFontSize it rest

/-- `buildLineText(items, avgFontSize)` (source lines 236–257). -/
def buildLineText (items : List RunItem) (avgFontSize : Rat) : String :=
  match items with
  | [] => ""
  | it :: rest => it.text ++ buildRest avgFontSize it rest

/-- `line.items.sort((a, b) => a.x - b.x)` (source line 171/217). -/
def sortRunsByX (items : List RunItem) : List RunItem :=
  sortOrd (fun a b => a.x ≤ b.x) items

/-- The per-line record `{y, text, fontSize, fullWidth}` built in the
two-column branch (source lines 182–187). -/
structure OutLine where
  y : Rat
  text : String
  fontSize : Rat
  fullWidth : Bool
deriving DecidableEq, Repr

/-- `Math.min(...)` over a list (callers only use nonempty lists). -/
def listMin : List Rat → Rat
  | [] => 0
  | x :: xs => xs.foldl min x

/-- `Math.max(...)` over a list (callers only use nonempty lists). -/
def listMax : List Rat → Rat
  | [] => 0
  | x :: xs => xs.foldl max x

/-- The classification loop of the two-column branch (source lines 170–188):
sorts each line's items by x, computes average x and horizontal span, and
buckets the line as full-width (span > 60% of page width, pushed on the left
list with the `fullWidth` flag), left (`avgX < midPage * 0.7`), or right. -/
def classifyLines (pw midPage avgF : Rat) : List Line → List OutLine × List OutLine
  | [] => ([], [])
  | l :: ls =>
      let sorted := sortRunsByX l.items
      let avgX := lineAvgX sorted
      let minX := listMin (sorted.map (fun it => it.x))
      let maxX := listMax (sorted.map (fun it => it.x + it.width))
      let p := classifyLines pw midPage avgF ls
      if maxX - minX > pw * 0.6 then
        (⟨l.y, buildLineText sorted avgF, l.fontSize, true⟩ :: p.1, p.2)
      else if avgX < midPage * 0.7 then
        (⟨l.y, buildLineText sorted avgF, l.fontSize, false⟩ :: p.1, p.2)
      else
        (p.1, ⟨l.y, buildLineText sorted avgF, l.fontSize, false⟩ :: p.2)

/-- A `for (const line of X) if (line.text.trim()) pageText += trim + '\n'`
emission loop (source lines 195–197, 203–205, 211–213). -/
def emitLines : List OutLine → String
  | [] => ""
  | l :: ls => (if jsTrim l.text ≠ "" then jsTrim l.text ++ "\n" else "") ++ emitLines ls

/-- The two-column page-text assembly (source lines 165–213): full-width lines
first, then the left column, then the right column, with a blank line between
nonempty groups. -/
def twoColumnText (pw midPage avgF : Rat) (lines : List Line) : String :=
  let p := classifyLines pw midPage avgF lines
  let fw := p.1.filter (fun l => l.fullWidth)
  let pl := p.1.filter (fun l => ¬ l.fullWidth)
  emitLines fw
  ++ (if fw.length > 0 ∧ (pl.length > 0 ∨ p.2.length > 0) then "\n" else "")
  ++ emitLines pl
  ++ (if pl.length > 0 ∧ p.2.length > 0 then "\n" else "")
  ++ emitLines p.2

/-- The single-column emission loop (source lines 215–223). -/
def singleColumnText (avgF : Rat) : List Line → String
  | [] => ""
  | l :: ls =>
      (if jsTrim (buildLineText (sortRunsByX l.items) avgF) ≠ "" then
        jsTrim (buildLineText (sortRunsByX l.items) avgF) ++ "\n"
      else "") ++ singleColumnText avgF ls

/-- The filtered items of a page (named for reuse in claim statements). -/
def pageItems (page : Page) : List TextItem := pageFiltered page

/-- `avgFontSize` of a page (source line 101). -/
def pageAvgF (page : Page) : Rat := pageAvgFontSize (pageItems page)

/-- `lineThreshold = Math.max(avgFontSize * 0.4, 2)` (source line 103). -/
def pageThr (page : Page) : Rat := max (pageAvgF page * 0.4) 2

/-- The grouped lines of a page: filter, sort with the y/x comparator, fold
into lines (source lines 100–143). -/
def pageLines (page : Page) : List Line :=
  groupLoop (pageThr page) (sortOrd (itemLe (pageThr page)) (pageItems page)) none

/-- The per-page body of `extractWithStandardMethod` after the empty-page
guards (source lines 96–223): detect a two-column layout and emit the page's
text accordingly. -/
def extractPageText (page : Page) : String :=
  let midPage := page.width / 2
  let lr := countLR midPage (pageLines page)
  if 3 < lr.1 ∧ 3 < lr.2 ∧
      (0.25 : Rat) < ((min lr.1 lr.2 : Nat) : Rat) / ((max lr.1 lr.2 : Nat) : Rat) then
    twoColumnText page.width midPage (pageAvgF page) (pageLines page)
  else
    singleColumnText (pageAvgF page) (pageLines page)

/-- The two `continue` guards of source lines 87 and 94: `none` when the page
has no items or no text-bearing items, otherwise the page's emitted text. -/
def pageBlock (page : Page) : Option String :=
  if page.items = [] then none
  else if pageFiltered page = [] then none
  else some (extractPageText page)

/-- The page loop of `extractWithStandardMethod` (source lines 77–228): `i` is
the 1-based index of the head page, `n` the document's page count.  A skipped
page (`pageBlock = none`) contributes nothing — the `continue` also skips the
page-break marker of line 227. -/
def stdGo : List Page → Nat → Nat → String
  | [], _, _ => ""
  | p :: rest, i, n =>
      match pageBlock p with
      | none => stdGo rest (i + 1) n
      | some t => t ++ (if i < n then "\n---\n" else "") ++ stdGo rest (i + 1) n

/-- `extractWithStandardMethod(pdf, numPages)` (source lines 74–231). -/
def extractWithStandardMethod (pages : List Page) : String :=
  stdGo pages 1 pages.length

/-!
## Text normalizer (`postProcessText`, source lines 480–525)

Each JS regex replace is embedded as a character scanner that reproduces the
regex engine's global left-to-right scan: a match is replaced and scanning
resumes after the match.  Multiline anchors (`^`/`$` with the `m` flag) are
tracked positionally.
-/

/-- Membership in the character class `[a-zA-ZÀ-ÿ0-9]` of the step-1 regex. -/
def isAlnumExt (c : Char) : Bool :=
  ('a' ≤ c && c ≤ 'z') || ('A' ≤ c && c ≤ 'Z') || ('À' ≤ c && c ≤ 'ÿ') || ('0' ≤ c && c ≤ '9')

/-- The multiline `$` anchor: end of input or just before a newline. -/
def atEOL : List Char → Bool
  | [] => true
  | c :: _ => c = '\n'

/-- Step 1, `/^[^a-zA-ZÀ-ÿ0-9]{1,2}$/gm → ''` (source line 487): at each line
start, greedily delete one or two characters outside the class when followed
by a line end.  The Bool tracks whether the scan position is a line start; the
fuel argument is at least the number of characters left, so it never runs out
before the input does. -/
def step1Go : Nat → Bool → List Char → List Char
  | 0, _, l => l
  | _ + 1, _, [] => []
  | _ + 1, ls, [c1] => if ls ∧ ¬ isAlnumExt c1 then [] else [c1]
  | fuel + 1, ls, c1 :: c2 :: rest2 =>
      if ls ∧ ¬ isAlnumExt c1 then
        if ¬ isAlnumExt c2 ∧ atEOL rest2 then step1Go fuel (c2 = '\n') rest2
        else if atEOL (c2 :: rest2) then step1Go fuel (c1 = '\n') (c2 :: rest2)
        else c1 :: step1Go fuel (c1 = '\n') (c2 :: rest2)
      else c1 :: step1Go fuel (c1 = '\n') (c2 :: rest2)

/-- JS `\w`: `[A-Za-z0-9_]`. -/
def isWordChar (c : Char) : Bool :=
  ('a' ≤ c && c ≤ 'z') || ('A' ≤ c && c ≤ 'Z') || ('0' ≤ c && c ≤ '9') || c = '_'

/-- Step 2, `/(\w)-\n(\w)/g → '$1$2'` (source line 490): join hyphenated line
breaks; the second word character is consumed by the match.  Fueled as in
`step1Go`. -/
def step2Go : Nat → List Char → List Char
  | 0, l => l
  | _ + 1, [] => []
  | fuel + 1, a :: '-' :: '\n' :: b :: rest =>
      if isWordChar a ∧ isWordChar b then a :: b :: step2Go fuel rest
      else a :: step2Go fuel ('-' :: '\n' :: b :: rest)
  | fuel + 1, c :: rest => c :: step2Go fuel rest

/-- Emit a run of `k` pending newlines, capped at 3 when `k ≥ 4`. -/
def nlOut (k : Nat) : List Char :=
  if 4 ≤ k then List.replicate 3 '\n' else List.replicate k '\n'

/-- Step 3, `/\n{4,}/g → '\n\n\n'` (source line 493): `k` counts the pending
newline run. -/
def step3Go (k : Nat) : List Char → List Char
  | [] => nlOut k
  | '\n' :: rest => step3Go (k + 1) rest
  | c :: rest => nlOut k ++ c :: step3Go 0 rest

/-- Emit a pending space/tab run: a run of three or more becomes exactly four
spaces. -/
def spOut (pend : List Char) : List Char :=
  if 3 ≤ pend.length then [' ', ' ', ' ', ' '] else pend

/-- Step 4a, `/[ \t]{3,}/g → '    '` (source line 496): `pend` accumulates the
current space/tab run. -/
def step4aGo (pend : List Char) : List Char → List Char
  | [] => spOut pend
  | c :: rest =>
      if c = ' ' ∨ c = '\t' then step4aGo (pend ++ [c]) rest
      else spOut pend ++ c :: step4aGo [] rest

/-- Step 4b, `/ {2}(?! )/g → ' '` (source line 497): two spaces are collapsed
to one only when not followed by a further space; on a failed lookahead the
scan advances one character.  Fueled as in `step1Go`. -/
def step4bGo : Nat → List Char → List Char
  | 0, l => l
  | _ + 1, [] => []
  | fuel + 1, ' ' :: ' ' :: ' ' :: rest => ' ' :: step4bGo fuel (' ' :: ' ' :: rest)
  | fuel + 1, ' ' :: ' ' :: rest => ' ' :: step4bGo fuel rest
  | fuel + 1, c :: rest => c :: step4bGo fuel rest

/-- Step 5 (source lines 500–502): `| → l`, `{ → (`, `} → )`. -/
def step5Char (c : Char) : Char :=
  if c = '|' then 'l'
  else if c = Char.ofNat 123 then '('
  else if c = Char.ofNat 125 then ')'
  else c

/-- Membership in the decorative class `[.\-_=•·]` of step 6. -/
def isDecor (c : Char) : Bool :=
  c = '.' || c = '-' || c = '_' || c = '=' || c = '•' || c = '·'

/-- Emit a pending decorative run begun at a line start: deleted when it has
three or more characters and ends at a line end. -/
def decorOut (pend next : List Char) : List Char :=
  if 3 ≤ pend.length ∧ atEOL next then [] else pend

/-- Step 6, `/^[.\-_=•·]{3,}$/gm → ''` (source line 505).  The optional
argument is the pending decorative run begun at a line start; the Bool is the
line-start flag when no run is pending. -/
def step6Go : Option (List Char) → Bool → List Char → List Char
  | none, _, [] => []
  | some pend, _, [] => decorOut pend []
  | none, ls, c :: rest =>
      if ls ∧ isDecor c then step6Go (some [c]) false rest
      else c :: step6Go none (c = '\n') rest
  | some pend, _, c :: rest =>
      if isDecor c then step6Go (some (pend ++ [c])) false rest
      else decorOut pend (c :: rest) ++ c :: step6Go none (c = '\n') rest

/-- Step 8, `^\n+` and `\n+$` removal (source line 514). -/
def step8 (l : List Char) : List Char :=
  ((l.dropWhile (fun c => c = '\n')).reverse.dropWhile (fun c => c = '\n')).reverse

/-- Simple case folding matching the JS `i` flag on the characters the header
list uses: ASCII letters and the Latin-1 range `À–Þ` (excluding `×`). -/
def foldChar (c : Char) : Char :=
  if 'A' ≤ c ∧ c ≤ 'Z' then Char.ofNat (c.toNat + 32)
  else if 'À' ≤ c ∧ c ≤ 'Þ' ∧ c ≠ '×' then Char.ofNat (c.toNat + 32)
  else c

/-- Case-insensitive literal match: on success returns the consumed original
characters and the rest. -/
def ciMatch : List Char → List Char → Option (List Char × List Char)
  | [], l => some ([], l)
  | _ :: _, [] => none
  | p :: ps, c :: cs =>
      if foldChar c = p then
        match ciMatch ps cs with
        | some pr => some (c :: pr.1, pr.2)
        | none => none
      else none

/-- An optional single character (`s?` in the header regex). -/
def matchOpt (p : Char) : List Char → List Char × List Char
  | [] => ([], [])
  | c :: cs => if foldChar c = p then ([c], cs) else ([], c :: cs)

/-- The literal alternatives of `sectionHeaders` (source line 518), in source
order, lower-cased for folded comparison. -/
def headerAlts : List (List Char) :=
  ["expérience", "experience", "formation", "education", "compétences",
   "skills", "langues", "languages", "certifications", "projets", "projects",
   "profil", "profile", "résumé", "summary", "contact", "références",
   "references", "objectif", "objective", "centres d\x27intérêt",
   "hobbies"].map String.toList

/-- Try the literal alternatives in order. -/
def matchAlts (alts : List (List Char)) (l : List Char) : Option (List Char × List Char) :=
  match alts with
  | [] => none
  | a :: rest =>
      match ciMatch a l with
      | some pr => some pr
      | none => matchAlts rest l

/-- The alternative `informations?\s*personnelles?`. -/
def matchInfoPers (l : List Char) : Option (List Char × List Char) :=
  match ciMatch "informations".toList.dropLast l with
  | none => none
  | some pr1 =>
      let s1 := matchOpt 's' pr1.2
      let ws := (s1.2.takeWhile isSpaceJS, s1.2.dropWhile isSpaceJS)
      match ciMatch "personnelles".toList.dropLast ws.2 with
      | none => none
      | some pr2 =>
          let s2 := matchOpt 's' pr2.2
          some (pr1.1 ++ s1.1 ++ ws.1 ++ pr2.1 ++ s2.1, s2.2)

/-- The alternative `personal\s*info`. -/
def matchPersInfo (l : List Char) : Option (List Char × List Char) :=
  match ciMatch "personal".toList l with
  | none => none
  | some pr1 =>
      let ws := (pr1.2.takeWhile isSpaceJS, pr1.2.dropWhile isSpaceJS)
      match ciMatch "info".toList ws.2 with
      | none => none
      | some pr2 => some (pr1.1 ++ ws.1 ++ pr2.1, pr2.2)

/-- One section-header alternative at a position, trying alternatives in the
source regex's order. -/
def matchHeader (l : List Char) : Option (List Char × List Char) :=
  match matchAlts headerAlts l with
  | some pr => some pr
  | none =>
      match matchInfoPers l with
      | some pr => some pr
      | none => matchPersInfo l

/-- Step 9, `/(\S)\n(^‹headers›)/gim → '$1\n\n$2'` (source lines 517–522):
insert a blank line between a non-blank line and a following section header.
The fuel argument is at least the number of characters left, so it never runs
out before the input does. -/
def step9Go : Nat → List Char → List Char
  | 0, l => l
  | _ + 1, [] => []
  | fuel + 1, c :: rest =>
      if ¬ isSpaceJS c then
        match rest with
        | '\n' :: rest2 =>
            match matchHeader rest2 with
            | some pr => c :: '\n' :: '\n' :: (pr.1 ++ step9Go fuel pr.2)
            | none => c :: step9Go fuel rest
        | _ => c :: step9Go fuel rest
      else c :: step9Go fuel rest

/-- `postProcessText(text)` (source lines 480–525): the nine cleanup passes in
source order. -/
def postProcessText (text : String) : String :=
  if text = "" then ""
  else
    let l1 := step1Go (text.toList.length + 1) true text.toList
    let l2 := step2Go (l1.length + 1) l1
    let l3 := step3Go 0 l2
    let l4a := step4aGo [] l3
    let l4b := step4bGo (l4a.length + 1) l4a
    let l5 := l4b.map step5Char
    let l6 := step6Go none true l5
    let l7 := joinNl ((splitNl l6).map trimChars)
    let l8 := step8 l7
    String.mk (step9Go (l8.length + 1) l8)

/-!
## OCR path (`extractWithOCR`, `reconstructTextFromOCRData`, source lines 346–471)
-/

/-- A Tesseract `Word`: text and confidence. -/
structure OCRWord where
  text : String
  confidence : Rat
deriving DecidableEq, Repr

/-- A Tesseract `Line`. -/
structure OCRLine where
  words : List OCRWord
deriving DecidableEq, Repr

/-- A Tesseract `Paragraph`. -/
structure OCRParagraph where
  lines : List OCRLine
deriving DecidableEq, Repr

/-- A Tesseract `Block`. -/
structure OCRBlock where
  paragraphs : List OCRParagraph
deriving DecidableEq, Repr

/-- A Tesseract result `data`: the block hierarchy and the flat `text`. -/
structure OCRData where
  blocks : List OCRBlock
  text : String
deriving DecidableEq, Repr

/-- The word loop of source lines 446–453: keep words with confidence above 30
and non-blank text, separated by single spaces; `acc` is `lineText`. -/
def ocrLineTextGo (acc : String) : List OCRWord → String
  | [] => acc
  | w :: ws =>
      if 30 < w.confidence ∧ w.text ≠ "" ∧ jsTrim w.text ≠ "" then
        ocrLineTextGo ((if acc ≠ "" then acc ++ " " else acc) ++ jsTrim w.text) ws
      else ocrLineTextGo acc ws

/-- The reconstructed text of one OCR line (source lines 446–453). -/
def ocrLineText (ws : List OCRWord) : String := ocrLineTextGo "" ws

/-- The paragraph loop of source lines 442–458: non-blank lines joined with
line breaks. -/
def ocrParaText (lines : List OCRLine) : String :=
  lines.foldl (fun acc l =>
    if jsTrim (ocrLineText l.words) ≠ "" then acc ++ jsTrim (ocrLineText l.words) ++ "\n"
    else acc) ""

/-- The block/paragraph loop of source lines 436–464: non-blank paragraphs
separated by a blank line. -/
def ocrBlockText (blocks : List OCRBlock) : String :=
  blocks.foldl (fun acc b =>
    b.paragraphs.foldl (fun acc2 p =>
      if jsTrim (ocrParaText p.lines) ≠ "" then acc2 ++ jsTrim (ocrParaText p.lines) ++ "\n\n"
      else acc2) acc) ""

/-- `reconstructTextFromOCRData(data)` (source lines 431–471): block-structured
reconstruction with `result || data.text || ''` fallback; flat `data.text || ''`
when no blocks are present. -/
def reconstructTextFromOCRData (d : OCRData) : String :=
  if d.blocks ≠ [] then
    if ocrBlockText d.blocks ≠ "" then ocrBlockText d.blocks
    else if d.text ≠ "" then d.text else ""
  else if d.text ≠ "" then d.text else ""

/-- The behaviour of the external collaborators inside one document's OCR run:
whether `worker.setParameters` succeeds, and, per page index, either the
recognition result or a failure of the page's render/recognize steps. -/
structure OCRWorld where
  setParamsOk : Bool
  pageData : Nat → Except String OCRData

/-- The per-page text appended inside the OCR loop (source lines 397–405): the
reconstruction when the flat `data.text` is non-blank, then the page-break
marker when the page is not the last. -/
def ocrPageContribution (d : OCRData) (i n : Nat) : String :=
  (if d.text ≠ "" ∧ jsTrim d.text ≠ "" then reconstructTextFromOCRData d else "")
  ++ (if i < n then "\n---\n" else "")

/-- The `for (let i = 1; i <= numPages; i++)` loop of source lines 375–410
inside the `try`: `rem` pages remain, `i` is the current 1-based index, `acc`
is `fullText`.  A failing page step propagates its error. -/
def ocrLoop (w : OCRWorld) (n : Nat) : Nat → Nat → String → Except String String
  | 0, _, acc => Except.ok acc
  | rem + 1, i, acc =>
      match w.pageData i with
      | Except.error e => Except.error e
      | Except.ok d => ocrLoop w n rem (i + 1) (acc ++ ocrPageContribution d i n)

/-- The observable outcome of `extractWithOCR`: the returned text or the
propagated error, and whether `worker.terminate()` ran. -/
structure OCRRun where
  result : Except String String
  terminated : Bool

/-- `extractWithOCR(pdf, numPages, onProgress)` (source lines 346–425).  The
worker is created, then `setParameters` runs *outside* the `try` block; only
the page loop is guarded by `try … finally worker.terminate()`. -/
def extractWithOCR (w : OCRWorld) (n : Nat) : OCRRun :=
  if w.setParamsOk then { result := ocrLoop w n n 1 "", terminated := true }
  else { result := Except.error "setParameters failed", terminated := false }

/-!
## Pipeline orchestrator (`extractTextFromPDF`, source lines 31–69)
-/

/-- The pipeline's returned record `{text, numPages, method}`. -/
structure ExtractionOutcome where
  text : String
  numPages : Nat
  method : String
deriving DecidableEq, Repr

/-- One pipeline run: the returned outcome or propagated error, and whether
the OCR recognition capability was ever initialized (`createWorker` ran). -/
structure PipelineRun where
  result : Except String ExtractionOutcome
  ocrInitialized : Bool

/-- `extractTextFromPDF(file, onProgress)` (source lines 31–69): standard
extraction, the 80-character threshold test on the trimmed text, and the OCR
fallback. -/
def extractTextFromPDF (pdf : PDFDoc) (w : OCRWorld) : PipelineRun :=
  let numPages := pdf.pages.length
  let standardText := extractWithStandardMethod pdf.pages
  if (jsTrim standardText).length ≥ 80 then
    { result := Except.ok ⟨postProcessText standardText, numPages, "text"⟩,
      ocrInitialized := false }
  else
    match (extractWithOCR w numPages).result with
    | Except.ok t =>
        { result := Except.ok ⟨postProcessText t, numPages, "ocr"⟩, ocrInitialized := true }
    | Except.error e => { result := Except.error e, ocrInitialized := true }

/-!
## Image preprocessor (`preprocessCanvasForOCR`, source lines 291–341)
-/

/-- One RGBA sample of the canvas pixel buffer. -/
structure Pixel where
  r : Int
  g : Int
  b : Int
  a : Int
deriving DecidableEq, Repr

/-- `Math.round` on the (nonnegative) values this code produces. -/
def jsRound (q : Rat) : Int := ⌊q + 1 / 2⌋

/-- The grayscale luminance of source lines 302/324. -/
def grayOf (p : Pixel) : Int :=
  jsRound (0.299 * (p.r : Rat) + 0.587 * (p.g : Rat) + 0.114 * (p.b : Rat))

/-- `histogram[i]`: how many pixels have grayscale value `i`. -/
def histCount (img : List Pixel) (i : Nat) : Nat :=
  (img.filter (fun p => grayOf p = (i : Int))).length

/-- The percentile loop of source lines 308–318: walk the histogram,
remembering the first bin reaching 2% (`lowVal`, guarded by `lowVal === 0`)
and breaking at the first bin reaching 98% (`highVal`).  Fuel 256 covers bins
0–255 exactly; if the loop never breaks, `highVal` keeps its initial 255. -/
def pctScan (img : List Pixel) (total : Rat) : Nat → Nat → Nat → Int → Int × Int
  | 0, _, _, low => (low, 255)
  | fuel + 1, i, cum, low =>
      let cum2 := cum + histCount img i
      let low2 := if total * 0.02 ≤ (cum2 : Rat) ∧ low = 0 then (i : Int) else low
      if total * 0.98 ≤ (cum2 : Rat) then (low2, (i : Int))
      else pctScan img total fuel (i + 1) cum2 low2

/-- `preprocessCanvasForOCR(sourceCanvas)` (source lines 291–341) on the pixel
buffer: grayscale, contrast stretch, gamma, written back to R, G and B with
alpha untouched.  `gpow` is the uninterpreted `x ↦ Math.pow(x, 0.85)`. -/
def preprocessCanvasForOCR (gpow : Rat → Rat) (w h : Nat) (img : List Pixel) : List Pixel :=
  let total := ((w * h : Nat) : Rat)
  let lh := pctScan img total 256 0 0 0
  let range := if lh.2 - lh.1 ≠ 0 then lh.2 - lh.1 else 1
  img.map (fun p =>
    let g0 := grayOf p
    let g1 := jsRound (((g0 - lh.1 : Int) : Rat) / ((range : Int) : Rat) * 255)
    let g2 := max 0 (min 255 g1)
    let g3 := jsRound (255 * gpow ((g2 : Rat) / 255))
    { r := g3, g := g3, b := g3, a := p.a })

/-!
## Auxiliary definitions used by the verification
-/

instance {ε α : Type} [DecidableEq ε] [DecidableEq α] : DecidableEq (Except ε α) := fun x y =>
  match x, y with
  | .ok a, .ok b =>
      if h : a = b then .isTrue (congrArg Except.ok h)
      else .isFalse (fun hc => h (Except.ok.inj hc))
  | .error a, .error b =>
      if h : a = b then .isTrue (congrArg Except.error h)
      else .isFalse (fun hc => h (Except.error.inj hc))
  | .ok _, .error _ => .isFalse (fun hc => Except.noConfusion hc)
  | .error _, .ok _ => .isFalse (fun hc => Except.noConfusion hc)

/-- Plain concatenation of a list of strings (used to phrase emission-order
results). -/
def joinLines : List String → String
  | [] => ""
  | s :: ss => s ++ joinLines ss

/-- The horizontal span the two-column classifier computes for a line
(source lines 175–177). -/
def lineSpan (l : Line) : Rat :=
  listMax ((sortRunsByX l.items).map (fun it => it.x + it.width))
    - listMin ((sortRunsByX l.items).map (fun it => it.x))

/-- The non-full-width `OutLine` record the classifier builds for a line. -/
def mkOut (avgF : Rat) (l : Line) : OutLine :=
  ⟨l.y, buildLineText (sortRunsByX l.items) avgF, l.fontSize, false⟩

/-- `stdGo` with the index-based page-break condition `i < numPages` replaced
by its list form: a page emits the marker iff some page follows it. -/
def stdFold : List Page → String
  | [] => ""
  | p :: rest =>
      (match pageBlock p with
       | none => ""
       | some t => t ++ (if rest = [] then "" else "\n---\n")) ++ stdFold rest

/-- `" " ++ t` for each element, concatenated: the tail of a single-space
join. -/
def tailJoin : List String → String
  | [] => ""
  | t :: ts => " " ++ t ++ tailJoin ts

/-- Join a list of strings with single spaces. -/
def spaceJoin : List String → String
  | [] => ""
  | t :: ts => t ++ tailJoin ts

/-- The word filter of the OCR line loop (source line 449) as a Boolean
predicate: confidence above 30 and non-blank text. -/
def keptWord (w : OCRWord) : Bool :=
  decide (30 < w.confidence ∧ w.text ≠ "" ∧ jsTrim w.text ≠ "")

/-- Modelled from the claim's words, for comparison with the source's
`ocrLineText`: keep exactly the words whose confidence exceeds 30 and join
their texts by single spaces. -/
def ocrLineTextClaim (ws : List OCRWord) : String :=
  spaceJoin ((ws.filter (fun w => decide (30 < w.confidence))).map (fun w => w.text))

/-- A page with no items at all. -/
def emptyPage : Page := ⟨100, []⟩

/-- A one-run page. -/
def helloPage : Page := ⟨100, [⟨"Hello", 20, 10, 10, 50, 700⟩]⟩

/-- A synthetic two-column page matching the *claimed* 42% bound but not the
code's 30% detection bound: five single-run lines at x = 35 (35% of the page
width) interleaved with five at x = 85 (85%), top to bottom. -/
def cexPage : Page := ⟨100, [
  ⟨"L1", 5, 10, 10, 35, 100⟩, ⟨"R1", 5, 10, 10, 85, 90⟩,
  ⟨"L2", 5, 10, 10, 35, 80⟩, ⟨"R2", 5, 10, 10, 85, 70⟩,
  ⟨"L3", 5, 10, 10, 35, 60⟩, ⟨"R3", 5, 10, 10, 85, 50⟩,
  ⟨"L4", 5, 10, 10, 35, 40⟩, ⟨"R4", 5, 10, 10, 85, 30⟩,
  ⟨"L5", 5, 10, 10, 35, 20⟩, ⟨"R5", 5, 10, 10, 85, 10⟩]⟩

/-- A synthetic two-column page inside the code's detection bounds: five
single-run lines at x = 10 (10% of the page width) interleaved with five at
x = 85 (85%), top to bottom. -/
def witPage : Page := ⟨100, [
  ⟨"L1", 5, 10, 10, 10, 100⟩, ⟨"R1", 5, 10, 10, 85, 90⟩,
  ⟨"L2", 5, 10, 10, 10, 80⟩, ⟨"R2", 5, 10, 10, 85, 70⟩,
  ⟨"L3", 5, 10, 10, 10, 60⟩, ⟨"R3", 5, 10, 10, 85, 50⟩,
  ⟨"L4", 5, 10, 10, 10, 40⟩, ⟨"R4", 5, 10, 10, 85, 30⟩,
  ⟨"L5", 5, 10, 10, 10, 20⟩, ⟨"R5", 5, 10, 10, 85, 10⟩]⟩

/-- A recognition result with no block structure and flat text. -/
def flatOCR : OCRData := ⟨[], "OCRTEXT"⟩

/-- A collaborator behaviour where configuration and every page succeed. -/
def okWorld : OCRWorld := ⟨true, fun _ => Except.ok flatOCR⟩

/-- A collaborator behaviour where `setParameters` fails. -/
def badConfigWorld : OCRWorld := ⟨false, fun _ => Except.ok flatOCR⟩

/-- A collaborator behaviour where configuration succeeds and page 2 fails. -/
def failPageWorld : OCRWorld :=
  ⟨true, fun i => if i = 2 then Except.error "recognize failed" else Except.ok flatOCR⟩

/-- A one-page document whose standard extraction stays under the threshold. -/
def pdfShort : PDFDoc := ⟨[helloPage]⟩

/-- 80 letters `a`. -/
def aaaa80 : String := String.mk (List.replicate 80 'a')

/-- A one-page document whose standard extraction meets the threshold. -/
def pdfLong : PDFDoc := ⟨[⟨100, [⟨aaaa80, 20, 10, 10, 50, 700⟩]⟩]⟩

/-- The outcome the pipeline returns on `pdfLong`. -/
def outLong : ExtractionOutcome := ⟨aaaa80, 1, "text"⟩

/-- A recognition result whose flat text is blank although its block
structure holds a high-confidence word. -/
def blankTextOCR : OCRData := ⟨[⟨[⟨[⟨[⟨"Hi", 90⟩]⟩]⟩]⟩], " "⟩

/-- A recognition result with block structure whose reconstruction is empty
(its only word is low-confidence), next to non-empty flat text. -/
def rawFallbackOCR : OCRData := ⟨[⟨[⟨[⟨[⟨"lo", 10⟩]⟩]⟩]⟩], "raw"⟩

/-- The line of OCR words used by the claim's confidence example. -/
def confExampleWords : List OCRWord := [⟨"w1", 10⟩, ⟨"w2", 45⟩, ⟨"w3", 92⟩]

/-- A line of OCR words all above the confidence cut, one of them blank. -/
def blankWordLine : List OCRWord := [⟨"hi", 50⟩, ⟨" ", 50⟩, ⟨"yo", 50⟩]

/-- A two-pixel RGBA image. -/
def twoPixels : List Pixel := [⟨10, 20, 30, 7⟩, ⟨200, 100, 50, 9⟩]

/-!
## Helper lemmas
-/

theorem append_ne_empty_left (a b : String) (h : a ≠ "") : a ++ b ≠ "" := by
  intro hc
  apply h
  apply String.ext
  have hd := congrArg String.data hc
  rw [String.data_append] at hd
  rcases List.append_eq_nil.mp hd with ⟨h1, _⟩
  simpa using h1

/-- Claim C5: between adjacent runs in a line, `buildLineText` emits no
separator when the gap is at most half the space width
(`avgFontSize * 0.3`), a single space when the gap is between 0.5× and 6×
the space width, and four spaces above that; in particular runs at
x = 10/width = 20 and x = 34 with average font size 10 join with one space,
and the same pair with the second run at x = 200 joins with four spaces. -/
theorem line_gap_spacing :
    (∀ (a b : RunItem) (rest : List RunItem) (f : Rat), 0 < f →
      buildLineText (a :: b :: rest) f =
        a.text ++
          (if b.x - (a.x + a.width) ≤ f * 0.3 * 0.5 then ""
           else if b.x - (a.x + a.width) ≤ f * 0.3 * 6 then " "
           else "    ")
          ++ buildLineText (b :: rest) f) ∧
    (∀ t u : String,
      buildLineText [⟨10, t, 20, 10⟩, ⟨34, u, 0, 10⟩] 10 = t ++ " " ++ u) ∧
    (∀ t u : String,
      buildLineText [⟨10, t, 20, 10⟩, ⟨200, u, 0, 10⟩] 10 = t ++ "    " ++ u) := by
  refine ⟨?_, ?_, ?_⟩
  · intro a b rest f hf
    show a.text ++ buildRest f a (b :: rest) = _
    have hsep :
        (if b.x - (a.x + a.width) > f * 0.3 * 6 then "    "
         else if b.x - (a.x + a.width) > f * 0.3 * 0.5 then " " else "") =
        (if b.x - (a.x + a.width) ≤ f * 0.3 * 0.5 then ""
         else if b.x - (a.x + a.width) ≤ f * 0.3 * 6 then " "
         else "    ") := by
      split_ifs <;> first | rfl | linarith
    rw [buildRest, hsep, buildLineText]
    simp [String.append_assoc]
  · intro t u
    show t ++ buildRest 10 ⟨10, t, 20, 10⟩ [⟨34, u, 0, 10⟩] = _
    rw [buildRest, if_neg (by norm_num), if_pos (by norm_num), buildRest]
    simp [String.append_assoc]
  · intro t u
    show t ++ buildRest 10 ⟨10, t, 20, 10⟩ [⟨200, u, 0, 10⟩] = _
    rw [buildRest, if_pos (by norm_num), buildRest]
    simp [String.append_assoc]

/-- Claim C5 (witness): concrete runs with positive average font size. -/
theorem line_gap_spacing_witness :
    (0 : Rat) < 10 ∧
    buildLineText [⟨10, "A", 20, 10⟩, ⟨34, "B", 0, 10⟩] 10 =
      "A" ++
        (if (34 : Rat) - (10 + 20) ≤ 10 * 0.3 * 0.5 then ""
         else if (34 : Rat) - (10 + 20) ≤ 10 * 0.3 * 6 then " "
         else "    ")
        ++ buildLineText [⟨34, "B", 0, 10⟩] 10 :=
  ⟨by norm_num,
   line_gap_spacing.1 ⟨10, "A", 20, 10⟩ ⟨34, "B", 0, 10⟩ [] 10 (by norm_num)⟩

/-- Claim C7 (failing input): the text normalizer maps `"a    b"` (one run of
four spaces, produced unchanged by the 3-or-more collapse) to `"a   b"` with
only *three* spaces: the `/ {2}(?! )/` pass shrinks the tail of the four-space
run, so a 3-or-more space run does not end as exactly four spaces. -/
theorem space_collapse_failing_input :
    postProcessText "a    b" = "a   b" ∧ postProcessText "a  b" = "a b" := by
  constructor <;> decide

/-- Claim C3 (amended): the recognition worker is released whenever the
per-page loop runs — normal completion or any per-page failure — but when
`setParameters` fails (it runs after acquisition, outside the
`try … finally`), the worker is not terminated before the error propagates. -/
theorem worker_release_after_config (w : OCRWorld) (n : Nat) :
    (w.setParamsOk = true → (extractWithOCR w n).terminated = true) ∧
    (w.setParamsOk = false → (extractWithOCR w n).terminated = false) := by
  constructor <;> intro h <;> simp [extractWithOCR, h]

/-- Claim C3 (counterexample): with a collaborator whose configuration step
fails, `extractWithOCR` propagates the error without terminating the worker —
so the worker is not released on *every* post-acquisition exit path. -/
theorem worker_release_counterexample :
    (extractWithOCR badConfigWorld 1).terminated = false ∧
    (extractWithOCR badConfigWorld 1).result = Except.error "setParameters failed" := by
  constructor <;> rfl

/-- Claim C3 (witness): configuration succeeds, page 2 of 3 fails: the error
propagates and the worker is terminated. -/
theorem worker_release_after_config_witness :
    (extractWithOCR failPageWorld 3).terminated = true ∧
    (extractWithOCR failPageWorld 3).result = Except.error "recognize failed" :=
  ⟨(worker_release_after_config failPageWorld 3).1 rfl, by rfl⟩

/-- Claim C10: a page whose flat recognition text is blank contributes only
the page-break marker, regardless of its block structure; and when block
structure is present but its reconstruction is empty, the flat text is
returned instead. -/
theorem ocr_empty_text_gate :
    (∀ (d : OCRData) (i n : Nat), jsTrim d.text = "" →
      ocrPageContribution d i n = (if i < n then "\n---\n" else "")) ∧
    (∀ d : OCRData, d.blocks ≠ [] → ocrBlockText d.blocks = "" →
      reconstructTextFromOCRData d = d.text) := by
  constructor
  · intro d i n h
    unfold ocrPageContribution
    rw [if_neg (fun hc => hc.2 h), String.empty_append]
  · intro d hb hr
    unfold reconstructTextFromOCRData
    rw [if_pos hb, if_neg (by simp [hr])]
    by_cases ht : d.text = ""
    · rw [if_neg (by simp [ht]), ht]
    · rw [if_pos ht]

/-- Claim C10 (witness): a page whose flat text is a single blank contributes
only the marker although its blocks hold a confidence-90 word; a result whose
blocks reconstruct to nothing falls back to its flat text `"raw"`. -/
theorem ocr_empty_text_gate_witness :
    ocrPageContribution blankTextOCR 1 2 = "\n---\n" ∧
    reconstructTextFromOCRData rawFallbackOCR = "raw" := by
  constructor
  · have h := ocr_empty_text_gate.1 blankTextOCR 1 2 (by rfl)
    simpa using h
  · exact ocr_empty_text_gate.2 rawFallbackOCR (by decide) (by rfl)

/-- Claim C9: the OCR image preprocessor writes one grayscale value to the
R, G and B channels of every pixel and leaves the alpha byte unchanged, for
any gamma function and image. -/
theorem preprocess_frame (gpow : Rat → Rat) (w h : Nat) (img : List Pixel)
    (i : Nat) (h1 : i < img.length)
    (h2 : i < (preprocessCanvasForOCR gpow w h img).length) :
    ((preprocessCanvasForOCR gpow w h img).get ⟨i, h2⟩).r
      = ((preprocessCanvasForOCR gpow w h img).get ⟨i, h2⟩).g ∧
    ((preprocessCanvasForOCR gpow w h img).get ⟨i, h2⟩).g
      = ((preprocessCanvasForOCR gpow w h img).get ⟨i, h2⟩).b ∧
    ((preprocessCanvasForOCR gpow w h img).get ⟨i, h2⟩).a = (img.get ⟨i, h1⟩).a := by
  have hmap : preprocessCanvasForOCR gpow w h img =
      img.map (fun p =>
        let lh := pctScan img ((w * h : Nat) : Rat) 256 0 0 0
        let range := if lh.2 - lh.1 ≠ 0 then lh.2 - lh.1 else 1
        let g1 := jsRound (((grayOf p - lh.1 : Int) : Rat) / ((range : Int) : Rat) * 255)
        let g2 := max 0 (min 255 g1)
        let g3 := jsRound (255 * gpow ((g2 : Rat) / 255))
        ({ r := g3, g := g3, b := g3, a := p.a } : Pixel)) := rfl
  refine ⟨?_, ?_, ?_⟩ <;>
    simp only [hmap, List.get_eq_getElem, List.getElem_map]

theorem ocrLineTextGo_spec (ws : List OCRWord) :
    ∀ acc : String,
      ocrLineTextGo acc ws =
        if acc = "" then spaceJoin ((ws.filter keptWord).map (fun w => jsTrim w.text))
        else acc ++ tailJoin ((ws.filter keptWord).map (fun w => jsTrim w.text)) := by
  induction ws with
  | nil =>
      intro acc
      by_cases h : acc = "" <;>
        simp [ocrLineTextGo, h, spaceJoin, tailJoin, List.filter_nil]
  | cons w ws ih =>
      intro acc
      simp only [ocrLineTextGo]
      by_cases hw : 30 < w.confidence ∧ w.text ≠ "" ∧ jsTrim w.text ≠ ""
      · have hkept : keptWord w = true := by simp [keptWord, hw]
        rw [if_pos hw, ih, List.filter_cons, if_pos hkept, List.map_cons]
        by_cases hacc : acc = ""
        · rw [if_pos hacc, hacc]
          have hacc2 : ((if ("" : String) ≠ "" then ("" : String) ++ " " else "")
              ++ jsTrim w.text) = jsTrim w.text := by
            rw [if_neg (by simp), String.empty_append]
          rw [hacc2, if_neg hw.2.2]
          simp [spaceJoin]
        · rw [if_neg hacc, if_pos hacc]
          rw [if_neg (append_ne_empty_left _ _ (append_ne_empty_left _ _ hacc))]
          simp [tailJoin, String.append_assoc]
      · have hkept : keptWord w = false := by simp [keptWord, hw]
        rw [if_neg hw, ih]
        simp only [List.filter_cons, hkept, Bool.false_eq_true, if_false]

/-- Claim C6 (amended): for every OCR result line, the reconstruction keeps
exactly the words whose confidence exceeds 30 *and* whose text is non-blank,
contributing each kept word's trimmed text, joined by single spaces; a line
with confidences 10/45/92 keeps only the latter two words. -/
theorem ocr_confidence_filter :
    (∀ ws : List OCRWord,
      ocrLineText ws = spaceJoin ((ws.filter keptWord).map (fun w => jsTrim w.text))) ∧
    ocrLineText confExampleWords = "w2 w3" := by
  constructor
  · intro ws
    have h := ocrLineTextGo_spec ws ""
    rw [if_pos rfl] at h
    exact h
  · decide

/-- Claim C6 (counterexample): a line holding a blank-text word of confidence
50 — the claim's rule (keep *exactly* the words with confidence above 30,
space-joined) yields `"hi   yo"`, but the code drops the blank word and
yields `"hi yo"`. -/
theorem ocr_confidence_filter_counterexample :
    ocrLineText blankWordLine = "hi yo" ∧
    ocrLineTextClaim blankWordLine = "hi   yo" ∧
    ocrLineText blankWordLine ≠ ocrLineTextClaim blankWordLine := by
  refine ⟨by decide, by decide, by decide⟩

theorem extractTextFromPDF_above (pdf : PDFDoc) (w : OCRWorld)
    (h : (jsTrim (extractWithStandardMethod pdf.pages)).length ≥ 80) :
    extractTextFromPDF pdf w =
      { result := Except.ok ⟨postProcessText (extractWithStandardMethod pdf.pages),
                             pdf.pages.length, "text"⟩,
        ocrInitialized := false } := by
  simp only [extractTextFromPDF]
  rw [if_pos h]

theorem extractTextFromPDF_below_ok (pdf : PDFDoc) (w : OCRWorld) (t : String)
    (h : ¬ (jsTrim (extractWithStandardMethod pdf.pages)).length ≥ 80)
    (hr : (extractWithOCR w pdf.pages.length).result = Except.ok t) :
    extractTextFromPDF pdf w =
      { result := Except.ok ⟨postProcessText t, pdf.pages.length, "ocr"⟩,
        ocrInitialized := true } := by
  simp only [extractTextFromPDF]
  rw [if_neg h, hr]

theorem extractTextFromPDF_below_error (pdf : PDFDoc) (w : OCRWorld) (e : String)
    (h : ¬ (jsTrim (extractWithStandardMethod pdf.pages)).length ≥ 80)
    (hr : (extractWithOCR w pdf.pages.length).result = Except.error e) :
    extractTextFromPDF pdf w = { result := Except.error e, ocrInitialized := true } := by
  simp only [extractTextFromPDF]
  rw [if_neg h, hr]

/-- Claim C1: the pipeline returns `method = "text"` with the recognition
capability never initialized exactly when the standard extraction's trimmed
length reaches the 80-character threshold; below it, the capability is
initialized and any returned outcome carries `method = "ocr"` and the
normalized OCR text. -/
theorem extract_method_text_iff (pdf : PDFDoc) (w : OCRWorld) :
    (((∃ o, (extractTextFromPDF pdf w).result = Except.ok o ∧ o.method = "text") ∧
        (extractTextFromPDF pdf w).ocrInitialized = false) ↔
      80 ≤ (jsTrim (extractWithStandardMethod pdf.pages)).length) ∧
    ((jsTrim (extractWithStandardMethod pdf.pages)).length < 80 →
      (extractTextFromPDF pdf w).ocrInitialized = true ∧
      ∀ o, (extractTextFromPDF pdf w).result = Except.ok o →
        o.method = "ocr" ∧
        ∃ t, (extractWithOCR w pdf.pages.length).result = Except.ok t ∧
          o.text = postProcessText t) := by
  by_cases h80 : 80 ≤ (jsTrim (extractWithStandardMethod pdf.pages)).length
  · have he := extractTextFromPDF_above pdf w h80
    constructor
    · exact ⟨fun _ => h80, fun _ =>
        ⟨⟨⟨postProcessText (extractWithStandardMethod pdf.pages), pdf.pages.length, "text"⟩,
          by rw [he], rfl⟩, by rw [he]⟩⟩
    · intro hlt; omega
  · constructor
    · constructor
      · rintro ⟨⟨o, ho, hm⟩, _⟩
        cases hres : (extractWithOCR w pdf.pages.length).result with
        | ok t =>
            rw [extractTextFromPDF_below_ok pdf w t h80 hres] at ho
            have h2 := Except.ok.inj ho
            rw [← h2] at hm
            have hne : ("ocr" : String) ≠ "text" := by decide
            exact absurd hm hne
        | error e =>
            rw [extractTextFromPDF_below_error pdf w e h80 hres] at ho
            exact Except.noConfusion ho
      · intro hge; exact absurd hge h80
    · intro _
      cases hres : (extractWithOCR w pdf.pages.length).result with
      | ok t =>
          have he := extractTextFromPDF_below_ok pdf w t h80 hres
          refine ⟨by rw [he], ?_⟩
          intro o ho
          rw [he] at ho
          have h2 := Except.ok.inj ho
          rw [← h2]
          exact ⟨rfl, ⟨t, rfl, rfl⟩⟩
      | error e =>
          have he := extractTextFromPDF_below_error pdf w e h80 hres
          refine ⟨by rw [he], ?_⟩
          intro o ho
          rw [he] at ho
          exact Except.noConfusion ho

/-- Claim C1 (witness): a one-page document with 5 trimmed characters takes
the OCR branch: the capability is initialized and the outcome is
`method = "ocr"` with the normalized flat OCR text. -/
theorem extract_method_text_iff_witness :
    (extractTextFromPDF pdfShort okWorld).ocrInitialized = true ∧
    (extractTextFromPDF pdfShort okWorld).result = Except.ok ⟨"OCRTEXT", 1, "ocr"⟩ :=
  ⟨((extract_method_text_iff pdfShort okWorld).2 (by decide)).1, by decide⟩

/-- Claim C8: whenever the pipeline returns an outcome, its `numPages` equals
the loader's reported page count, whichever method produced the text. -/
theorem outcome_numPages (pdf : PDFDoc) (w : OCRWorld) (o : ExtractionOutcome)
    (h : (extractTextFromPDF pdf w).result = Except.ok o) :
    o.numPages = pdf.pages.length := by
  by_cases h80 : (jsTrim (extractWithStandardMethod pdf.pages)).length ≥ 80
  · rw [extractTextFromPDF_above pdf w h80] at h
    have h2 := Except.ok.inj h
    rw [← h2]
  · cases hres : (extractWithOCR w pdf.pages.length).result with
    | ok t =>
        rw [extractTextFromPDF_below_ok pdf w t h80 hres] at h
        have h2 := Except.ok.inj h
        rw [← h2]
    | error e =>
        rw [extractTextFromPDF_below_error pdf w e h80 hres] at h
        exact Except.noConfusion h

/-- Claim C8 (witness): the text-path document returns its outcome with
`numPages = 1`, the loader's count. -/
theorem outcome_numPages_witness :
    (extractTextFromPDF pdfLong okWorld).result = Except.ok outLong ∧
    outLong.numPages = 1 :=
  ⟨by decide, outcome_numPages pdfLong okWorld outLong (by decide)⟩

theorem stdGo_eq_stdFold (pages : List Page) :
    ∀ i n : Nat, i + pages.length = n + 1 → stdGo pages i n = stdFold pages := by
  induction pages with
  | nil => intro i n _; rfl
  | cons p rest ih =>
      intro i n hn
      have hrec : stdGo rest (i + 1) n = stdFold rest := by
        apply ih
        simp only [List.length_cons] at hn
        omega
      have hiff : i < n ↔ rest ≠ [] := by
        constructor
        · intro hin hnil
          subst hnil
          simp only [List.length_cons, List.length_nil] at hn
          omega
        · intro hne
          cases rest with
          | nil => exact absurd rfl hne
          | cons q qs =>
              simp only [List.length_cons] at hn
              omega
      cases hpb : pageBlock p with
      | none => simp only [stdGo, stdFold, hpb, hrec, String.empty_append]
      | some t =>
          simp only [stdGo, stdFold, hpb, hrec]
          by_cases hr : rest = []
          · rw [if_neg (fun hin => (hiff.mp hin) hr), if_pos hr]
          · rw [if_pos (hiff.mpr hr), if_neg hr]

theorem stdFold_skip (pre post : List Page) (ep : Page) (hep : pageBlock ep = none)
    (hpost : post ≠ []) :
    stdFold (pre ++ ep :: post) = stdFold (pre ++ post) := by
  induction pre with
  | nil =>
      simp only [List.nil_append, stdFold, hep]
      rw [String.empty_append]
  | cons p pre ih =>
      simp only [List.cons_append, stdFold, List.append_eq]
      rw [ih]
      have h1 : ¬ (pre ++ ep :: post = []) := by simp
      have h2 : ¬ (pre ++ post = []) := by
        intro hc
        rcases List.append_eq_nil.mp hc with ⟨_, hc2⟩
        exact hpost hc2
      cases hpb : pageBlock p with
      | none => simp only [hpb]
      | some t =>
          simp only [hpb]
          rw [if_neg h1, if_neg h2]

/-- Claim C2 (amended): a non-final page with zero text-bearing glyph runs
contributes nothing at all — its text *and* the page-break marker after it
are both skipped (the `continue` jumps past the marker append), so removing
such a page leaves the extracted text unchanged. -/
theorem empty_page_skipped (pre post : List Page) (ep : Page)
    (hep : pageBlock ep = none) (hpost : post ≠ []) :
    extractWithStandardMethod (pre ++ ep :: post) = extractWithStandardMethod (pre ++ post) := by
  unfold extractWithStandardMethod
  rw [stdGo_eq_stdFold (pre ++ ep :: post) 1 (pre ++ ep :: post).length (by omega)]
  rw [stdGo_eq_stdFold (pre ++ post) 1 (pre ++ post).length (by omega)]
  exact stdFold_skip pre post ep hep hpost

/-- Claim C2 (counterexample): a two-page document whose first page has no
text-bearing runs.  The claim says the page-break marker between pages 1 and
2 is still emitted; the code emits `"Hello\n"` with no marker — no `-`
character occurs in the output at all. -/
theorem empty_page_marker_counterexample :
    pageBlock emptyPage = none ∧
    extractWithStandardMethod [emptyPage, helloPage] = "Hello\n" ∧
    '-' ∉ (extractWithStandardMethod [emptyPage, helloPage]).toList := by
  refine ⟨by decide, by decide, by decide⟩

/-- Claim C2 (witness): removing the empty first page leaves the output
unchanged. -/
theorem empty_page_skipped_witness :
    extractWithStandardMethod [emptyPage, helloPage] = extractWithStandardMethod [helloPage] :=
  empty_page_skipped [] [helloPage] emptyPage (by decide) (by decide)

/-- Claim C9 (witness): both channels of pixel 0 of a concrete two-pixel
image agree and its alpha byte 7 is preserved. -/
theorem preprocess_frame_witness :
    ((preprocessCanvasForOCR id 2 1 twoPixels).get ⟨0, by decide⟩).r
      = ((preprocessCanvasForOCR id 2 1 twoPixels).get ⟨0, by decide⟩).g ∧
    ((preprocessCanvasForOCR id 2 1 twoPixels).get ⟨0, by decide⟩).g
      = ((preprocessCanvasForOCR id 2 1 twoPixels).get ⟨0, by decide⟩).b ∧
    ((preprocessCanvasForOCR id 2 1 twoPixels).get ⟨0, by decide⟩).a
      = (twoPixels.get ⟨0, by decide⟩).a :=
  preprocess_frame id 2 1 twoPixels 0 (by decide) (by decide)

theorem insOrd_perm {α : Type} (le : α → α → Bool) (x : α) (l : List α) :
    (insOrd le x l).Perm (x :: l) := by
  induction l with
  | nil => exact List.Perm.refl _
  | cons y ys ih =>
      simp only [insOrd]
      by_cases h : le x y
      · rw [if_pos h]
      · rw [if_neg h]
        exact (ih.cons y).trans (List.Perm.swap x y ys)

theorem sortOrd_perm {α : Type} (le : α → α → Bool) (l : List α) :
    (sortOrd le l).Perm l := by
  induction l with
  | nil => exact List.Perm.refl _
  | cons x xs ih => exact (insOrd_perm le x (sortOrd le xs)).trans (ih.cons x)

theorem sortRunsByX_perm (items : List RunItem) : (sortRunsByX items).Perm items :=
  sortOrd_perm _ items

theorem lineAvgX_sortRunsByX (items : List RunItem) :
    lineAvgX (sortRunsByX items) = lineAvgX items := by
  unfold lineAvgX
  rw [((sortRunsByX_perm items).map (fun it => it.x)).sum_eq,
      (sortRunsByX_perm items).length_eq]

theorem countLR_spec (pw : Rat) (hw : 0 < pw) (ls : List Line)
    (h : ∀ l ∈ ls, lineAvgX l.items < pw * 0.3 ∨ pw * 0.8 < lineAvgX l.items) :
    countLR (pw / 2) ls =
      ((ls.filter (fun l => decide (lineAvgX l.items < pw * 0.3))).length,
       (ls.filter (fun l => decide (pw * 0.8 < lineAvgX l.items))).length) := by
  induction ls with
  | nil => rfl
  | cons l ls ih =>
      have hl := h l (List.mem_cons_self l ls)
      have ihr := ih (fun x hx => h x (List.mem_cons_of_mem l hx))
      have e6 : pw / 2 * 0.6 = pw * 0.3 := by ring
      simp only [countLR, ihr, List.filter_cons, decide_eq_true_eq]
      rcases hl with hleft | hright
      · have c1 : lineAvgX l.items < pw / 2 * 0.6 := by rw [e6]; exact hleft
        have c2 : ¬ (pw * 0.8 < lineAvgX l.items) := by linarith
        rw [if_pos c1, if_pos hleft, if_neg c2]
        simp [List.length_cons]
      · have c1 : ¬ (lineAvgX l.items < pw / 2 * 0.6) := by
          rw [e6]; exact not_lt.mpr (by linarith)
        have c2 : lineAvgX l.items > pw / 2 * 0.8 := by
          have e8 : pw / 2 * 0.8 = pw * 0.4 := by ring
          rw [e8]; linarith
        have c3 : ¬ (lineAvgX l.items < pw * 0.3) := not_lt.mpr (by linarith)
        rw [if_neg c1, if_pos c2, if_neg c3, if_pos hright]
        simp [List.length_cons]

theorem classifyLines_spec (pw avgF : Rat) (hw : 0 < pw) (ls : List Line)
    (hcls : ∀ l ∈ ls, lineAvgX l.items < pw * 0.3 ∨ pw * 0.8 < lineAvgX l.items)
    (hspan : ∀ l ∈ ls, lineSpan l ≤ pw * 0.6) :
    classifyLines pw (pw / 2) avgF ls =
      ((ls.filter (fun l => decide (lineAvgX l.items < pw * 0.3))).map (mkOut avgF),
       (ls.filter (fun l => decide (pw * 0.8 < lineAvgX l.items))).map (mkOut avgF)) := by
  induction ls with
  | nil => rfl
  | cons l ls ih =>
      have hl := hcls l (List.mem_cons_self l ls)
      have hs := hspan l (List.mem_cons_self l ls)
      have ihr := ih (fun x hx => hcls x (List.mem_cons_of_mem l hx))
        (fun x hx => hspan x (List.mem_cons_of_mem l hx))
      unfold lineSpan at hs
      simp only [classifyLines, ihr, List.filter_cons, decide_eq_true_eq]
      rw [if_neg (not_lt.mpr hs)]
      have havg := lineAvgX_sortRunsByX l.items
      rcases hl with hleft | hright
      · have c : lineAvgX (sortRunsByX l.items) < pw / 2 * 0.7 := by
          rw [havg]; linarith
        have c2 : ¬ (pw * 0.8 < lineAvgX l.items) := by linarith
        rw [if_pos c, if_pos hleft, if_neg c2]
        simp [mkOut]
      · have c : ¬ (lineAvgX (sortRunsByX l.items) < pw / 2 * 0.7) := by
          rw [havg]; exact not_lt.mpr (by linarith)
        have c3 : ¬ (lineAvgX l.items < pw * 0.3) := not_lt.mpr (by linarith)
        rw [if_neg c, if_neg c3, if_pos hright]
        simp [mkOut]

theorem emitOut_fullWidth (avgF : Rat) (ls : List Line) :
    (ls.map (mkOut avgF)).filter (fun l => l.fullWidth) = [] := by
  induction ls with
  | nil => rfl
  | cons l ls ih => simp [List.filter_cons, mkOut, ih]

theorem emitOut_pure (avgF : Rat) (ls : List Line) :
    (ls.map (mkOut avgF)).filter (fun l => ¬ l.fullWidth) = ls.map (mkOut avgF) := by
  induction ls with
  | nil => rfl
  | cons l ls ih => simp [List.filter_cons, mkOut, ih]

theorem emitLines_map (avgF : Rat) (ls : List Line)
    (h : ∀ l ∈ ls, jsTrim (buildLineText (sortRunsByX l.items) avgF) ≠ "") :
    emitLines (ls.map (mkOut avgF)) =
      joinLines (ls.map (fun l => jsTrim (buildLineText (sortRunsByX l.items) avgF) ++ "\n")) := by
  induction ls with
  | nil => rfl
  | cons l ls ih =>
      simp only [List.map_cons, emitLines, joinLines, mkOut]
      rw [if_pos (h l (List.mem_cons_self l ls)),
          ih (fun x hx => h x (List.mem_cons_of_mem l hx))]

/-- Claim C4 (amended): for a page of positive width whose grouped lines all
stay within 60% of the page width and split into exactly five lines with
average x below 30% of the page width (the code's detection bound,
`midPage * 0.6`) and five with average x above 80%, with non-blank texts, the
two-column layout is detected and the page text lists all left-column lines
before all right-column lines, each group in its order in `pageLines` (top to
bottom). -/
theorem two_column_order (page : Page) (hw : 0 < page.width)
    (hcls : ∀ l ∈ pageLines page,
      lineAvgX l.items < page.width * 0.3 ∨ page.width * 0.8 < lineAvgX l.items)
    (hspan : ∀ l ∈ pageLines page, lineSpan l ≤ page.width * 0.6)
    (htext : ∀ l ∈ pageLines page,
      jsTrim (buildLineText (sortRunsByX l.items) (pageAvgF page)) ≠ "")
    (hlc : ((pageLines page).filter
        (fun l => decide (lineAvgX l.items < page.width * 0.3))).length = 5)
    (hrc : ((pageLines page).filter
        (fun l => decide (page.width * 0.8 < lineAvgX l.items))).length = 5) :
    extractPageText page =
      joinLines (((pageLines page).filter
          (fun l => decide (lineAvgX l.items < page.width * 0.3))).map
        (fun l => jsTrim (buildLineText (sortRunsByX l.items) (pageAvgF page)) ++ "\n"))
      ++ "\n"
      ++ joinLines (((pageLines page).filter
          (fun l => decide (page.width * 0.8 < lineAvgX l.items))).map
        (fun l => jsTrim (buildLineText (sortRunsByX l.items) (pageAvgF page)) ++ "\n")) := by
  have hcount := countLR_spec page.width hw (pageLines page) hcls
  simp only [extractPageText]
  rw [hcount, hlc, hrc]
  rw [if_pos (by norm_num)]
  simp only [twoColumnText]
  rw [classifyLines_spec page.width (pageAvgF page) hw (pageLines page) hcls hspan]
  dsimp only
  rw [emitOut_fullWidth, emitOut_pure]
  have hmemL : ∀ l ∈ (pageLines page).filter
      (fun l => decide (lineAvgX l.items < page.width * 0.3)),
      jsTrim (buildLineText (sortRunsByX l.items) (pageAvgF page)) ≠ "" :=
    fun l hl => htext l (List.mem_of_mem_filter hl)
  have hmemR : ∀ l ∈ (pageLines page).filter
      (fun l => decide (page.width * 0.8 < lineAvgX l.items)),
      jsTrim (buildLineText (sortRunsByX l.items) (pageAvgF page)) ≠ "" :=
    fun l hl => htext l (List.mem_of_mem_filter hl)
  rw [emitLines_map _ _ hmemL, emitLines_map _ _ hmemR]
  rw [if_neg (by simp)]
  rw [if_pos (by
    constructor <;> rw [List.length_map] <;> first
      | rw [hlc] ; omega
      | rw [hrc] ; omega)]
  simp only [emitLines, String.empty_append, String.append_assoc]

/-- Claim C4 (counterexample): page `cexPage` satisfies the claim's premise —
ten single-run lines, five with average x below 42% of the page width (they
sit at 35%) and five above 80% — yet the emitted page text interleaves the
two groups: the first right-column line appears before the second left-column
line.  Detection counts "left-leaning" only below 30% of the page width, so
no two-column layout is found. -/
theorem two_column_42pct_counterexample :
    ((pageLines cexPage).filter
        (fun l => decide (lineAvgX l.items < cexPage.width * 0.42))).length = 5 ∧
    ((pageLines cexPage).filter
        (fun l => decide (cexPage.width * 0.8 < lineAvgX l.items))).length = 5 ∧
    extractPageText cexPage = "L1\nR1\nL2\nR2\nL3\nR3\nL4\nR4\nL5\nR5\n" ∧
    (splitNl (extractPageText cexPage).toList).indexOf "R1".toList <
      (splitNl (extractPageText cexPage).toList).indexOf "L2".toList := by
  refine ⟨by decide, by decide, by decide, by decide⟩

/-- Claim C4 (witness): the ten-line page `witPage` (left runs at 10% of the
page width, right runs at 85%, vertically interleaved) satisfies every
hypothesis, and its emitted text lists L1–L5 before R1–R5, each in
top-to-bottom order. -/
theorem two_column_order_witness :
    extractPageText witPage = "L1\nL2\nL3\nL4\nL5\n\nR1\nR2\nR3\nR4\nR5\n" := by
  have h := two_column_order witPage (by decide) (by decide) (by decide) (by decide)
    (by decide) (by decide)
  rw [h]
  decide
